import Mathlib

/-!
Shallow embedding of the SIRF registration Python wrapper
(`src/Registration/pReg/SIRFReg.py`) and, where the wrapper calls into the
native `pysirfreg` engine, a model of that engine taken from the module
specification.  Python objects are records of their attributes; the opaque
native handles are indices into an explicit store of image contents; native
calls that only forward arguments are represented by the call descriptor they
build; floating-point voxel values and matrix entries are modelled as exact
rationals.
-/

/-- Error kinds of the module's error taxonomy (spec §7): the wrapper's
`raise error(...)` sites are mapped to the kind the spec assigns them. -/
inductive SirfError where
  | ioError
  | dimensionMismatch
  | configurationError
  | unsupportedArity
  | registrationFailure
  | typeMismatch
deriving DecidableEq, Repr

/-- Modelled from the spec: the in-memory content behind a native image
handle — dimension vector, voxel datatype, and a contiguous voxel buffer
(float values idealised as exact rationals). -/
structure ImageContent where
  dims : List Nat
  datatype : String
  data : List ℚ
deriving DecidableEq, Repr

instance : Inhabited ImageContent := ⟨⟨[], "float32", []⟩⟩

/-- The native engine's heap of image contents; a handle is an index. -/
structure Store where
  cells : List ImageContent
deriving DecidableEq, Repr

/-- Content behind a handle (default content if the handle is dangling). -/
def Store.read (s : Store) (h : Nat) : ImageContent :=
  s.cells.getD h default

/-- Overwrite the content behind a handle. -/
def Store.write (s : Store) (h : Nat) (c : ImageContent) : Store :=
  ⟨s.cells.set h c⟩

/-- Modelled from the spec: `cSIRFReg_newObject` allocates a fresh handle
with empty content ("created empty"); returns the new store and the handle. -/
def Store.newObject (s : Store) : Store × Nat :=
  (⟨s.cells ++ [default]⟩, s.cells.length)

/-- A Python-side image proxy object: its `name` class-tag attribute and the
opaque native handle it wraps. -/
structure PyImage where
  name : String
  handle : Nat
deriving DecidableEq, Repr

/-- The five concrete image class names the wrapper's constructors assign to
`self.name`. -/
def imageClassNames : List String :=
  ["NiftiImage", "NiftiImage3D", "NiftiImage3DTensor",
   "NiftiImage3DDeformation", "NiftiImage3DDisplacement"]

/-- `NiftiImage.deep_copy`: dispatch on `self.name` to construct a fresh
object of the same class (each branch calls that class's no-argument
constructor, i.e. `newObject`), then `cSIRFReg_NiftiImage_deep_copy` copies
the source content into the fresh handle.  A `self.name` outside the five
dispatched literals leaves the local unbound in the Python source, modelled
as `none`. -/
def deep_copy (s : Store) (a : PyImage) : Option (Store × PyImage) :=
  if a.name = "NiftiImage" ∨ a.name = "NiftiImage3D" ∨
     a.name = "NiftiImage3DTensor" ∨ a.name = "NiftiImage3DDeformation" ∨
     a.name = "NiftiImage3DDisplacement" then
    let (s1, h) := s.newObject
    some (s1.write h (s.read a.handle), ⟨a.name, h⟩)
  else
    none

/-- `NiftiImage.__eq__`: native bitwise/metadata comparison of the two
handles' contents (spec §4.1: "bitwise/metadata comparison, not
approximate"). -/
def nifti_eq (s : Store) (a b : PyImage) : Bool :=
  decide (s.read a.handle = s.read b.handle)

/-- Modelled from the spec: `cSIRFReg_NiftiImage_maths_num(z, self, v, op)`
writes `self op v` voxelwise into `z`'s content; the wrapper passes flag 0
for add, 1 for subtract, 2 for multiply. -/
def maths_num (c : ImageContent) (v : ℚ) (op : Fin 3) : ImageContent :=
  match op with
  | 0 => { c with data := c.data.map (fun x => x + v) }
  | 1 => { c with data := c.data.map (fun x => x - v) }
  | 2 => { c with data := c.data.map (fun x => x * v) }

/-- Modelled from the spec: `cSIRFReg_NiftiImage_maths_im(z, self, other, op)`
writes the elementwise combination into `z`, failing with
`DimensionMismatch` unless the two images have identical dimensions
(flag 0 for add, 1 for subtract). -/
def maths_im (c d : ImageContent) (op : Fin 2) : Except SirfError ImageContent :=
  if c.dims = d.dims ∧ c.data.length = d.data.length then
    match op with
    | 0 => .ok { c with data := List.zipWith (fun x y => x + y) c.data d.data }
    | 1 => .ok { c with data := List.zipWith (fun x y => x - y) c.data d.data }
  else
    .error .dimensionMismatch

/-- The right operand of the wrapper's binary image operators: another image
proxy or a Python scalar. -/
inductive Operand where
  | image (b : PyImage)
  | scalar (v : ℚ)
deriving DecidableEq, Repr

/-- `NiftiImage.__add__`: `z = self.deep_copy()`, then the native maths call
writes `self + other` into `z`'s handle; returns the fresh proxy `z`. -/
def nifti_add (s : Store) (a : PyImage) (o : Operand) :
    Except SirfError (Store × PyImage) :=
  match deep_copy s a with
  | none => .error .typeMismatch
  | some (s1, z) =>
    match o with
    | .scalar v => .ok (s1.write z.handle (maths_num (s1.read a.handle) v 0), z)
    | .image b =>
      match maths_im (s1.read a.handle) (s1.read b.handle) 0 with
      | .error e => .error e
      | .ok c => .ok (s1.write z.handle c, z)

/-- `NiftiImage.__sub__`: as `__add__` with maths flag 1. -/
def nifti_sub (s : Store) (a : PyImage) (o : Operand) :
    Except SirfError (Store × PyImage) :=
  match deep_copy s a with
  | none => .error .typeMismatch
  | some (s1, z) =>
    match o with
    | .scalar v => .ok (s1.write z.handle (maths_num (s1.read a.handle) v 1), z)
    | .image b =>
      match maths_im (s1.read a.handle) (s1.read b.handle) 1 with
      | .error e => .error e
      | .ok c => .ok (s1.write z.handle c, z)

/-- `NiftiImage.__mul__`: scalar multiply, `z = self.deep_copy()` then maths
flag 2 into `z`. -/
def nifti_mul (s : Store) (a : PyImage) (v : ℚ) :
    Except SirfError (Store × PyImage) :=
  match deep_copy s a with
  | none => .error .typeMismatch
  | some (s1, z) => .ok (s1.write z.handle (maths_num (s1.read a.handle) v 2), z)

/-- The in-place mutations of an image the wrapper exposes: `fill`,
`change_datatype`, and the native in-place maths primitive applied with the
image as destination. -/
inductive Mutation where
  | fill (v : ℚ)
  | change_datatype (dt : String)
  | maths_num_into (src : ImageContent) (v : ℚ) (op : Fin 3)
deriving Repr

/-- Modelled from the spec: apply a mutation to the content behind the
target image's handle, touching no other cell (`fill` writes the constant
into every voxel; `change_datatype` performs a value-preserving cast, so the
rational voxel values are unchanged). -/
def applyMutation (s : Store) (target : PyImage) : Mutation → Store
  | .fill v =>
    s.write target.handle
      { s.read target.handle with
        data := (s.read target.handle).data.map (fun _ => v) }
  | .change_datatype dt =>
    s.write target.handle { s.read target.handle with datatype := dt }
  | .maths_num_into src v op =>
    s.write target.handle (maths_num src v op)

/-- A `_Transformation` proxy object on the Python side: one of the three
concrete transformation classes (`Mat44`, `NiftiImage3DDisplacement`,
`NiftiImage3DDeformation`), each wrapping a native handle. -/
inductive Transf where
  | mat44 (handle : Nat)
  | disp (handle : Nat)
  | defo (handle : Nat)
deriving DecidableEq, Repr

/-- The native handle a transformation proxy wraps. -/
def Transf.handle : Transf → Nat
  | .mat44 h => h
  | .disp h => h
  | .defo h => h

/-- The per-element type character `compose_single_deformation` appends to
its `types` string: '1' for `Mat44`, '2' for displacement, '3' for
deformation. -/
def Transf.typeChar : Transf → Char
  | .mat44 _ => '1'
  | .disp _ => '2'
  | .defo _ => '3'

/-- Result of materialising a transformation as a deformation field: the
Python proxy around the native handle the engine returned. -/
structure DefField where
  handle : Nat
deriving DecidableEq, Repr

/-- The native engine operations the transformation wrapper forwards to; a
value of this type stands for one loaded engine. -/
structure Engine where
  gadf : Transf → Nat → Nat
  composeN : Nat → Nat → String → List Nat → Nat

/-- `_Transformation.get_as_deformation_field(self, ref)`: forwards the
transformation's handle (and class name, here its variant) together with the
reference image's handle to the native conversion and wraps the returned
handle. -/
def get_as_deformation_field (e : Engine) (t : Transf) (refh : Nat) : DefField :=
  ⟨e.gadf t refh⟩

/-- `NiftiImage3DDeformation.compose_single_deformation(trans, ref)`: one
element delegates to `get_as_deformation_field`; two to five elements build
the `types` character string and forward the handles to the native
composition; any other arity raises (`UnsupportedArity` in the spec's
taxonomy). -/
def compose_single_deformation (e : Engine) (trans : List Transf) (refh : Nat) :
    Except SirfError DefField :=
  match trans with
  | [t] => .ok (get_as_deformation_field e t refh)
  | [t0, t1] =>
    .ok ⟨e.composeN refh 2 (String.mk (trans.map Transf.typeChar))
          [t0.handle, t1.handle]⟩
  | [t0, t1, t2] =>
    .ok ⟨e.composeN refh 3 (String.mk (trans.map Transf.typeChar))
          [t0.handle, t1.handle, t2.handle]⟩
  | [t0, t1, t2, t3] =>
    .ok ⟨e.composeN refh 4 (String.mk (trans.map Transf.typeChar))
          [t0.handle, t1.handle, t2.handle, t3.handle]⟩
  | [t0, t1, t2, t3, t4] =>
    .ok ⟨e.composeN refh 5 (String.mk (trans.map Transf.typeChar))
          [t0.handle, t1.handle, t2.handle, t3.handle, t4.handle]⟩
  | _ => .error .unsupportedArity

/-- The argument tuple `dump_headers` passes to the native
`cSIRFReg_NiftiImage_dump_headers` call: the image count and the five handle
slots (unused slots are `None`). -/
structure DumpCall where
  n : Nat
  handles : List (Option Nat)
deriving DecidableEq, Repr

/-- `NiftiImage.dump_header(self)`: dumps this image's header via the native
call with arity 1 and the remaining four slots `None`. -/
def dump_header (a : PyImage) : Except SirfError DumpCall :=
  .ok ⟨1, [some a.handle, none, none, none, none]⟩

/-- `NiftiImage.dump_headers(to_dump)` (static): dispatch on the list length,
forwarding one to five handles; any other length raises (`UnsupportedArity`
in the spec's taxonomy). -/
def dump_headers (to_dump : List PyImage) : Except SirfError DumpCall :=
  match to_dump with
  | [a] => .ok ⟨1, [some a.handle, none, none, none, none]⟩
  | [a, b] => .ok ⟨2, [some a.handle, some b.handle, none, none, none]⟩
  | [a, b, c] => .ok ⟨3, [some a.handle, some b.handle, some c.handle, none, none]⟩
  | [a, b, c, d] =>
    .ok ⟨4, [some a.handle, some b.handle, some c.handle, some d.handle, none]⟩
  | [a, b, c, d, f] =>
    .ok ⟨5, [some a.handle, some b.handle, some c.handle, some d.handle, some f.handle]⟩
  | _ => .error .unsupportedArity

/-- Modelled from the spec: the affine-matrix value behind a `Mat44` handle —
a 4×4 numeric matrix with entries idealised as exact rationals. -/
abbrev Mat44V := Matrix (Fin 4) (Fin 4) ℚ

/-- `Mat44.get_identity()` (native `cSIRFReg_SIRFRegMat44_get_identity`):
the identity affine matrix. -/
def mat44_get_identity : Mat44V := 1

/-- `Mat44.__mul__` (native `cSIRFReg_SIRFRegMat44_mul`): matrix
multiplication of two affine matrices. -/
def mat44_mul (a b : Mat44V) : Mat44V := a * b

/-- `Mat44.get_determinant` (native `determinant` parameter): the matrix
determinant. -/
def mat44_get_determinant (m : Mat44V) : ℚ := m.det

/-- `NiftyResample`'s wrapper-visible state: the spec's configuration (§4.5)
of reference/floating image plus an integer interpolation-kernel code. -/
structure NiftyResampleSt where
  reference_image : Option Nat
  floating_image : Option Nat
  interpolation_type : Int
deriving DecidableEq, Repr

/-- `NiftyResample.set_interpolation_type`: sets the integer kernel code
parameter. -/
def set_interpolation_type (r : NiftyResampleSt) (t : Int) : NiftyResampleSt :=
  { r with interpolation_type := t }

/-- `set_interpolation_type_to_nearest_neighbour`: literal code 0. -/
def set_interpolation_type_to_nearest_neighbour (r : NiftyResampleSt) : NiftyResampleSt :=
  set_interpolation_type r 0

/-- `set_interpolation_type_to_linear`: literal code 1. -/
def set_interpolation_type_to_linear (r : NiftyResampleSt) : NiftyResampleSt :=
  set_interpolation_type r 1

/-- `set_interpolation_type_to_cubic_spline`: literal code 3. -/
def set_interpolation_type_to_cubic_spline (r : NiftyResampleSt) : NiftyResampleSt :=
  set_interpolation_type r 3

/-- `set_interpolation_type_to_sinc`: literal code 4. -/
def set_interpolation_type_to_sinc (r : NiftyResampleSt) : NiftyResampleSt :=
  set_interpolation_type r 4

/-- The interpolation-kernel codes reachable through the four named setters,
in setter order. -/
def interpolationCodes (r : NiftyResampleSt) : List Int :=
  [(set_interpolation_type_to_nearest_neighbour r).interpolation_type,
   (set_interpolation_type_to_linear r).interpolation_type,
   (set_interpolation_type_to_cubic_spline r).interpolation_type,
   (set_interpolation_type_to_sinc r).interpolation_type]

/-- `ImageWeightedMean`'s accumulated configuration: the (image, weight)
pairs added so far. -/
structure ImageWeightedMeanSt where
  pairs : List (ImageContent × ℚ)
deriving DecidableEq, Repr

/-- `ImageWeightedMean.add_image`: append an (image, weight) pair. -/
def iwm_add_image (w : ImageWeightedMeanSt) (img : ImageContent) (weight : ℚ) :
    ImageWeightedMeanSt :=
  ⟨w.pairs ++ [(img, weight)]⟩

/-- Total of the accumulated weights. -/
def iwm_sumWeights (w : ImageWeightedMeanSt) : ℚ :=
  (w.pairs.map Prod.snd).sum

/-- Modelled from the spec (§4.6, the native
`cSIRFReg_SIRFRegImageWeightedMean_update`): per voxel,
`sum(weight_i * value_i) / sum(weight_i)`; a missing input or a zero total
weight is a `ConfigurationError`; images of differing dimensions a
`DimensionMismatch`. -/
def iwm_update (w : ImageWeightedMeanSt) : Except SirfError ImageContent :=
  match w.pairs with
  | [] => .error .configurationError
  | (c0, w0) :: rest =>
    if iwm_sumWeights w = 0 then .error .configurationError
    else if rest.all (fun p => p.1.dims = c0.dims ∧ p.1.data.length = c0.data.length) then
      .ok { dims := c0.dims, datatype := c0.datatype,
            data := (rest.foldl
                      (fun acc p => List.zipWith (fun x y => x + p.2 * y) acc p.1.data)
                      (c0.data.map (fun x => w0 * x))).map
                    (fun x => x / iwm_sumWeights w) }
    else .error .dimensionMismatch

lemma Store.read_write_ne (s : Store) {h k : Nat} (hne : k ≠ h) (c : ImageContent) :
    (s.write k c).read h = s.read h := by
  simp [Store.read, Store.write, List.getD_eq_getElem?_getD, List.getElem?_set_ne hne]

lemma Store.read_write_self (s : Store) {k : Nat} (hk : k < s.cells.length) (c : ImageContent) :
    (s.write k c).read k = c := by
  simp [Store.read, Store.write, List.getD_eq_getElem?_getD,
    List.getElem?_set_self hk]

lemma Store.read_append_lt (s : Store) {h : Nat} (hh : h < s.cells.length)
    (c : ImageContent) :
    (Store.mk (s.cells ++ [c])).read h = s.read h := by
  simp [Store.read, List.getD_eq_getElem?_getD, List.getElem?_append_left hh]

lemma Store.length_write (s : Store) (k : Nat) (c : ImageContent) :
    (s.write k c).cells.length = s.cells.length := by
  simp [Store.write]

/-- The membership test `deep_copy` performs over the five class names,
phrased as list membership. -/
lemma deep_copy_cond_iff (a : PyImage) :
    (a.name = "NiftiImage" ∨ a.name = "NiftiImage3D" ∨
     a.name = "NiftiImage3DTensor" ∨ a.name = "NiftiImage3DDeformation" ∨
     a.name = "NiftiImage3DDisplacement") ↔ a.name ∈ imageClassNames := by
  simp [imageClassNames]

lemma deep_copy_eq (s : Store) (a : PyImage) (hc : a.name ∈ imageClassNames) :
    deep_copy s a =
      some ((Store.mk (s.cells ++ [default])).write s.cells.length (s.read a.handle),
            ⟨a.name, s.cells.length⟩) := by
  unfold deep_copy
  rw [if_pos ((deep_copy_cond_iff a).2 hc)]
  rfl

/-- **C1.** Composing a single-element transformation chain
`compose_single_deformation([T], R)` returns exactly
`T.get_as_deformation_field(R)`: for one element the composer delegates to
the element's own materialisation, so the two code paths agree for every
engine, transformation, and reference image. -/
theorem compose_single_delegates (e : Engine) (t : Transf) (refh : Nat) :
    compose_single_deformation e [t] refh = .ok (get_as_deformation_field e t refh) :=
  rfl

/-- **C10.** The single-image `dump_header()` builds the same native call as
the static `dump_headers` applied to the one-element list: arity 1, the
image's handle in the first slot, `None` in the rest. -/
theorem dump_header_eq_singleton (a : PyImage) :
    dump_header a = dump_headers [a] :=
  rfl

/-- **C5.** The identity affine matrix satisfies `M * X = X` for every 4×4
affine `X` and has determinant 1 (exact in the rational idealisation, hence
within any floating-point tolerance). -/
theorem mat44_identity_spec (X : Mat44V) :
    mat44_mul mat44_get_identity X = X ∧
    mat44_get_determinant mat44_get_identity = 1 := by
  constructor
  · show (1 : Mat44V) * X = X
    exact one_mul X
  · show Matrix.det (1 : Mat44V) = 1
    exact Matrix.det_one

/-- **C8.** The four named interpolation setters write exactly the literal
codes 0, 1, 3, 4; the enumeration of codes reachable through them is exactly
`[0, 1, 3, 4]`, which omits 2. -/
theorem interpolation_codes_exact (r : NiftyResampleSt) :
    (set_interpolation_type_to_nearest_neighbour r).interpolation_type = 0 ∧
    (set_interpolation_type_to_linear r).interpolation_type = 1 ∧
    (set_interpolation_type_to_cubic_spline r).interpolation_type = 3 ∧
    (set_interpolation_type_to_sinc r).interpolation_type = 4 ∧
    interpolationCodes r = [0, 1, 3, 4] ∧
    (2 : Int) ∉ interpolationCodes r := by
  refine ⟨rfl, rfl, rfl, rfl, rfl, ?_⟩
  simp [interpolationCodes, set_interpolation_type_to_nearest_neighbour,
    set_interpolation_type_to_linear, set_interpolation_type_to_cubic_spline,
    set_interpolation_type_to_sinc, set_interpolation_type]

/-- **C9.** `deep_copy` returns an object whose class tag equals the
receiver's: the dispatch on `self.name` constructs an instance of the same
concrete class for each of the five image classes. -/
theorem deep_copy_preserves_class (s : Store) (a : PyImage)
    (h : a.name ∈ imageClassNames) :
    ∃ p : Store × PyImage, deep_copy s a = some p ∧ p.2.name = a.name :=
  ⟨_, deep_copy_eq s a h, rfl⟩

/-- Witness for C9 at a concrete `NiftiImage3D` proxy over a one-cell store. -/
theorem deep_copy_preserves_class_witness :
    ("NiftiImage3D" : String) ∈ imageClassNames ∧
    ∃ p : Store × PyImage,
      deep_copy ⟨[⟨[3, 2, 2, 2], "float32", [1, 2]⟩]⟩ ⟨"NiftiImage3D", 0⟩ = some p ∧
      p.2.name = "NiftiImage3D" :=
  ⟨by decide,
   deep_copy_preserves_class ⟨[⟨[3, 2, 2, 2], "float32", [1, 2]⟩]⟩
     ⟨"NiftiImage3D", 0⟩ (by decide)⟩

/-- **C2.** Arity discipline of composition and header dump: the composer
fails with `UnsupportedArity` exactly when given 0 or more than 5
transformations, and `dump_headers` fails with `UnsupportedArity` exactly
when given 0 or more than 5 images; every count from 1 to 5 is accepted. -/
theorem arity_bounds (e : Engine) (trans : List Transf) (refh : Nat)
    (imgs : List PyImage) :
    (compose_single_deformation e trans refh = .error .unsupportedArity ↔
      (trans.length = 0 ∨ 5 < trans.length)) ∧
    (dump_headers imgs = .error .unsupportedArity ↔
      (imgs.length = 0 ∨ 5 < imgs.length)) := by
  constructor
  · rcases trans with _ | ⟨t0, _ | ⟨t1, _ | ⟨t2, _ | ⟨t3, _ | ⟨t4, _ | ⟨t5, rest⟩⟩⟩⟩⟩⟩ <;>
      simp [compose_single_deformation]
  · rcases imgs with _ | ⟨a0, _ | ⟨a1, _ | ⟨a2, _ | ⟨a3, _ | ⟨a4, _ | ⟨a5, rest⟩⟩⟩⟩⟩⟩ <;>
      simp [dump_headers]

lemma read_after_copy (s : Store) {h : Nat} (hh : h < s.cells.length) (c : ImageContent) :
    ((Store.mk (s.cells ++ [default])).write s.cells.length c).read h = s.read h := by
  rw [Store.read_write_ne _ (Nat.ne_of_lt hh).symm, Store.read_append_lt s hh]

lemma copy_store_length (s : Store) (c : ImageContent) :
    ((Store.mk (s.cells ++ [default])).write s.cells.length c).cells.length =
      s.cells.length + 1 := by
  simp [Store.write]

lemma nifti_add_scalar_eq (s : Store) (a : PyImage) (v : ℚ)
    (hn : a.name ∈ imageClassNames) :
    nifti_add s a (.scalar v) =
      .ok ((((Store.mk (s.cells ++ [default])).write s.cells.length (s.read a.handle)).write
              s.cells.length
              (maths_num (((Store.mk (s.cells ++ [default])).write s.cells.length
                            (s.read a.handle)).read a.handle) v 0)),
           ⟨a.name, s.cells.length⟩) := by
  unfold nifti_add
  rw [deep_copy_eq s a hn]

lemma nifti_sub_scalar_eq (s : Store) (a : PyImage) (v : ℚ)
    (hn : a.name ∈ imageClassNames) :
    nifti_sub s a (.scalar v) =
      .ok ((((Store.mk (s.cells ++ [default])).write s.cells.length (s.read a.handle)).write
              s.cells.length
              (maths_num (((Store.mk (s.cells ++ [default])).write s.cells.length
                            (s.read a.handle)).read a.handle) v 1)),
           ⟨a.name, s.cells.length⟩) := by
  unfold nifti_sub
  rw [deep_copy_eq s a hn]

lemma nifti_mul_scalar_eq (s : Store) (a : PyImage) (v : ℚ)
    (hn : a.name ∈ imageClassNames) :
    nifti_mul s a v =
      .ok ((((Store.mk (s.cells ++ [default])).write s.cells.length (s.read a.handle)).write
              s.cells.length
              (maths_num (((Store.mk (s.cells ++ [default])).write s.cells.length
                            (s.read a.handle)).read a.handle) v 2)),
           ⟨a.name, s.cells.length⟩) := by
  unfold nifti_mul
  rw [deep_copy_eq s a hn]

lemma maths_num_add_sub_cancel (c : ImageContent) (v : ℚ) :
    maths_num (maths_num c v 0) v 1 = c := by
  cases c with
  | mk dims dt data =>
    simp [maths_num, List.map_map, Function.comp_def, add_sub_cancel_right]

lemma read_copy_write (s : Store) {h : Nat} (hh : h < s.cells.length)
    (c0 c1 : ImageContent) :
    (((Store.mk (s.cells ++ [default])).write s.cells.length c0).write s.cells.length c1).read h
      = s.read h := by
  rw [Store.read_write_ne _ (Nat.ne_of_lt hh).symm]
  exact read_after_copy s hh c0

lemma read_copy_write_self (s : Store) (c0 c1 : ImageContent) :
    (((Store.mk (s.cells ++ [default])).write s.cells.length c0).write s.cells.length c1).read
      s.cells.length = c1 := by
  apply Store.read_write_self
  simp [Store.write]

lemma copy_write_length (s : Store) (c0 c1 : ImageContent) :
    (((Store.mk (s.cells ++ [default])).write s.cells.length c0).write
      s.cells.length c1).cells.length = s.cells.length + 1 := by
  simp [Store.write]

/-- **C3.** `deep_copy` produces an independent equal copy: immediately after
the copy the native equality test on A and C holds, and every in-place
mutation of C (`fill`, `change_datatype`, the in-place maths primitive)
leaves the content behind A's handle exactly as it was. -/
theorem deep_copy_independent (s : Store) (a : PyImage)
    (ha : a.handle < s.cells.length) (hn : a.name ∈ imageClassNames) :
    ∃ s' c, deep_copy s a = some (s', c) ∧
      nifti_eq s' a c = true ∧
      ∀ m : Mutation, (applyMutation s' c m).read a.handle = s.read a.handle := by
  refine ⟨_, _, deep_copy_eq s a hn, ?_, ?_⟩
  · have h1 := read_after_copy s ha (s.read a.handle)
    have h2 : ((Store.mk (s.cells ++ [default])).write s.cells.length
        (s.read a.handle)).read s.cells.length = s.read a.handle := by
      apply Store.read_write_self
      simp
    simp [nifti_eq, h1, h2]
  · intro m
    cases m <;>
      simp only [applyMutation] <;>
      rw [Store.read_write_ne _ (Nat.ne_of_lt ha).symm] <;>
      exact read_after_copy s ha _

/-- Witness for C3: a one-image store, its `NiftiImage` proxy. -/
theorem deep_copy_independent_witness :
    ∃ s' c,
      deep_copy ⟨[⟨[2, 3, 1], "float32", [5, 7, 9]⟩]⟩ ⟨"NiftiImage", 0⟩ = some (s', c) ∧
      nifti_eq s' ⟨"NiftiImage", 0⟩ c = true ∧
      ∀ m : Mutation,
        (applyMutation s' c m).read (PyImage.handle ⟨"NiftiImage", 0⟩) =
          (Store.mk [⟨[2, 3, 1], "float32", [5, 7, 9]⟩]).read
            (PyImage.handle ⟨"NiftiImage", 0⟩) :=
  deep_copy_independent ⟨[⟨[2, 3, 1], "float32", [5, 7, 9]⟩]⟩ ⟨"NiftiImage", 0⟩
    (by decide) (by decide)

lemma nifti_add_image_eq (s : Store) (a b : PyImage)
    (ha : a.handle < s.cells.length) (hb : b.handle < s.cells.length)
    (hn : a.name ∈ imageClassNames)
    (hdim : (s.read a.handle).dims = (s.read b.handle).dims)
    (hlen : (s.read a.handle).data.length = (s.read b.handle).data.length) :
    nifti_add s a (.image b) =
      .ok ((((Store.mk (s.cells ++ [default])).write s.cells.length (s.read a.handle)).write
              s.cells.length
              { s.read a.handle with
                data := List.zipWith (fun x y => x + y)
                          (s.read a.handle).data (s.read b.handle).data }),
           ⟨a.name, s.cells.length⟩) := by
  have him : maths_im
      (((Store.mk (s.cells ++ [default])).write s.cells.length (s.read a.handle)).read a.handle)
      (((Store.mk (s.cells ++ [default])).write s.cells.length (s.read a.handle)).read b.handle)
      0 =
      .ok { s.read a.handle with
            data := List.zipWith (fun x y => x + y)
                      (s.read a.handle).data (s.read b.handle).data } := by
    rw [read_after_copy s ha, read_after_copy s hb]
    unfold maths_im
    rw [if_pos ⟨hdim, hlen⟩]
  unfold nifti_add
  rw [deep_copy_eq s a hn]
  simp only [him]

lemma nifti_sub_image_eq (s : Store) (a b : PyImage)
    (ha : a.handle < s.cells.length) (hb : b.handle < s.cells.length)
    (hn : a.name ∈ imageClassNames)
    (hdim : (s.read a.handle).dims = (s.read b.handle).dims)
    (hlen : (s.read a.handle).data.length = (s.read b.handle).data.length) :
    nifti_sub s a (.image b) =
      .ok ((((Store.mk (s.cells ++ [default])).write s.cells.length (s.read a.handle)).write
              s.cells.length
              { s.read a.handle with
                data := List.zipWith (fun x y => x - y)
                          (s.read a.handle).data (s.read b.handle).data }),
           ⟨a.name, s.cells.length⟩) := by
  have him : maths_im
      (((Store.mk (s.cells ++ [default])).write s.cells.length (s.read a.handle)).read a.handle)
      (((Store.mk (s.cells ++ [default])).write s.cells.length (s.read a.handle)).read b.handle)
      1 =
      .ok { s.read a.handle with
            data := List.zipWith (fun x y => x - y)
                      (s.read a.handle).data (s.read b.handle).data } := by
    rw [read_after_copy s ha, read_after_copy s hb]
    unfold maths_im
    rw [if_pos ⟨hdim, hlen⟩]
  unfold nifti_sub
  rw [deep_copy_eq s a hn]
  simp only [him]

/-- **C4.** The binary operators `A + x`, `A - x`, `A * s` each return a
fresh result image (its handle is the newly allocated one, distinct from
both operands' handles) and leave the content behind both operands' handles
unchanged: the operation happens on a deep copy, never in place on an
operand. -/
theorem binary_ops_value_semantics (s : Store) (a b : PyImage) (v : ℚ)
    (ha : a.handle < s.cells.length) (hb : b.handle < s.cells.length)
    (hn : a.name ∈ imageClassNames)
    (hdim : (s.read a.handle).dims = (s.read b.handle).dims)
    (hlen : (s.read a.handle).data.length = (s.read b.handle).data.length) :
    ∀ r ∈ [nifti_add s a (.image b), nifti_sub s a (.image b),
           nifti_add s a (.scalar v), nifti_sub s a (.scalar v), nifti_mul s a v],
      ∃ s' z, r = .ok (s', z) ∧
        z.handle = s.cells.length ∧ a.handle ≠ z.handle ∧ b.handle ≠ z.handle ∧
        s'.read a.handle = s.read a.handle ∧
        s'.read b.handle = s.read b.handle := by
  have hna := Nat.ne_of_lt ha
  have hnb := Nat.ne_of_lt hb
  intro r hr
  simp only [List.mem_cons, List.not_mem_nil, or_false] at hr
  rcases hr with rfl | rfl | rfl | rfl | rfl
  · exact ⟨_, _, nifti_add_image_eq s a b ha hb hn hdim hlen, rfl, hna, hnb,
      read_copy_write s ha _ _, read_copy_write s hb _ _⟩
  · exact ⟨_, _, nifti_sub_image_eq s a b ha hb hn hdim hlen, rfl, hna, hnb,
      read_copy_write s ha _ _, read_copy_write s hb _ _⟩
  · exact ⟨_, _, nifti_add_scalar_eq s a v hn, rfl, hna, hnb,
      read_copy_write s ha _ _, read_copy_write s hb _ _⟩
  · exact ⟨_, _, nifti_sub_scalar_eq s a v hn, rfl, hna, hnb,
      read_copy_write s ha _ _, read_copy_write s hb _ _⟩
  · exact ⟨_, _, nifti_mul_scalar_eq s a v hn, rfl, hna, hnb,
      read_copy_write s ha _ _, read_copy_write s hb _ _⟩

/-- Witness for C4: the `A + B` case over a two-image store with same-shape
images. -/
theorem binary_ops_value_semantics_witness :
    ∃ s' z,
      nifti_add ⟨[⟨[1, 2], "float32", [1, 2]⟩, ⟨[1, 2], "float32", [3, 4]⟩]⟩
          ⟨"NiftiImage", 0⟩ (.image ⟨"NiftiImage3D", 1⟩) = .ok (s', z) ∧
      z.handle = 2 ∧ PyImage.handle ⟨"NiftiImage", 0⟩ ≠ z.handle ∧
      PyImage.handle ⟨"NiftiImage3D", 1⟩ ≠ z.handle ∧
      s'.read (PyImage.handle ⟨"NiftiImage", 0⟩) =
        Store.read ⟨[⟨[1, 2], "float32", [1, 2]⟩, ⟨[1, 2], "float32", [3, 4]⟩]⟩
          (PyImage.handle ⟨"NiftiImage", 0⟩) ∧
      s'.read (PyImage.handle ⟨"NiftiImage3D", 1⟩) =
        Store.read ⟨[⟨[1, 2], "float32", [1, 2]⟩, ⟨[1, 2], "float32", [3, 4]⟩]⟩
          (PyImage.handle ⟨"NiftiImage3D", 1⟩) :=
  binary_ops_value_semantics
    ⟨[⟨[1, 2], "float32", [1, 2]⟩, ⟨[1, 2], "float32", [3, 4]⟩]⟩
    ⟨"NiftiImage", 0⟩ ⟨"NiftiImage3D", 1⟩ 5
    (by decide) (by decide) (by decide) (by decide) (by decide)
    (nifti_add ⟨[⟨[1, 2], "float32", [1, 2]⟩, ⟨[1, 2], "float32", [3, 4]⟩]⟩
      ⟨"NiftiImage", 0⟩ (.image ⟨"NiftiImage3D", 1⟩))
    (List.mem_cons_self _ _)

lemma nifti_add_scalar_read (t : Store) (z1 : PyImage) (v : ℚ)
    (hz : z1.handle < t.cells.length) (hn : z1.name ∈ imageClassNames) :
    ∃ s1 w1, nifti_add t z1 (.scalar v) = .ok (s1, w1) ∧
      s1.read w1.handle = maths_num (t.read z1.handle) v 0 ∧
      w1.name = z1.name ∧ w1.handle < s1.cells.length := by
  refine ⟨_, _, nifti_add_scalar_eq t z1 v hn, ?_, rfl, ?_⟩
  · rw [read_copy_write_self, read_after_copy t hz]
  · simp only [copy_write_length]
    exact Nat.lt_succ_self _

lemma nifti_sub_scalar_read (t : Store) (z1 : PyImage) (v : ℚ)
    (hz : z1.handle < t.cells.length) (hn : z1.name ∈ imageClassNames) :
    ∃ s2 w2, nifti_sub t z1 (.scalar v) = .ok (s2, w2) ∧
      s2.read w2.handle = maths_num (t.read z1.handle) v 1 := by
  refine ⟨_, _, nifti_sub_scalar_eq t z1 v hn, ?_⟩
  rw [read_copy_write_self, read_after_copy t hz]

/-- **C6.** `(A + s) - s` reproduces A voxelwise: adding the scalar and then
subtracting it yields a result image whose content equals A's exactly in the
rational idealisation (hence within any floating-point tolerance). -/
theorem add_sub_scalar_cancel (s : Store) (a : PyImage) (v : ℚ)
    (ha : a.handle < s.cells.length) (hn : a.name ∈ imageClassNames) :
    ∃ s1 z1 s2 z2,
      nifti_add s a (.scalar v) = .ok (s1, z1) ∧
      nifti_sub s1 z1 (.scalar v) = .ok (s2, z2) ∧
      s2.read z2.handle = s.read a.handle := by
  obtain ⟨s1, z1, e1, hr1, hname, hlt⟩ := nifti_add_scalar_read s a v ha hn
  obtain ⟨s2, z2, e2, hr2⟩ :=
    nifti_sub_scalar_read s1 z1 v hlt (by rw [hname]; exact hn)
  exact ⟨s1, z1, s2, z2, e1, e2, by rw [hr2, hr1, maths_num_add_sub_cancel]⟩

/-- Witness for C6 at a concrete one-image store and scalar 5. -/
theorem add_sub_scalar_cancel_witness :
    ∃ s1 z1 s2 z2,
      nifti_add ⟨[⟨[2, 3, 1], "float32", [1, 2, 3]⟩]⟩ ⟨"NiftiImage", 0⟩ (.scalar 5) =
        .ok (s1, z1) ∧
      nifti_sub s1 z1 (.scalar 5) = .ok (s2, z2) ∧
      s2.read z2.handle =
        Store.read ⟨[⟨[2, 3, 1], "float32", [1, 2, 3]⟩]⟩
          (PyImage.handle ⟨"NiftiImage", 0⟩) :=
  add_sub_scalar_cancel ⟨[⟨[2, 3, 1], "float32", [1, 2, 3]⟩]⟩ ⟨"NiftiImage", 0⟩ 5
    (by decide) (by decide)

/-- **C7.** If the accumulated weights sum to zero, `update()` fails with
`ConfigurationError`; and weights need not sum to 1 for success (a
configuration with total weight 2 succeeds). -/
theorem iwm_zero_weight (w : ImageWeightedMeanSt) (h : iwm_sumWeights w = 0) :
    iwm_update w = .error .configurationError ∧
    ∃ w2 : ImageWeightedMeanSt,
      iwm_sumWeights w2 ≠ 1 ∧ (iwm_update w2).isOk = true := by
  constructor
  · obtain ⟨pairs⟩ := w
    cases pairs with
    | nil => rfl
    | cons p rest =>
      obtain ⟨c0, w0⟩ := p
      simp [iwm_update, h]
  · refine ⟨⟨[(⟨[1, 1], "float32", [2]⟩, 2)]⟩, ?_, ?_⟩
    · norm_num [iwm_sumWeights]
    · norm_num [iwm_update, iwm_sumWeights, Except.isOk, Except.toBool]

/-- Witness for C7: two equal-weight, opposite-sign entries totalling zero. -/
theorem iwm_zero_weight_witness :
    iwm_sumWeights ⟨[(⟨[1, 1], "float32", [3]⟩, 2), (⟨[1, 1], "float32", [4]⟩, -2)]⟩ = 0 ∧
    (iwm_update ⟨[(⟨[1, 1], "float32", [3]⟩, 2), (⟨[1, 1], "float32", [4]⟩, -2)]⟩ =
        .error .configurationError ∧
      ∃ w2 : ImageWeightedMeanSt,
        iwm_sumWeights w2 ≠ 1 ∧ (iwm_update w2).isOk = true) :=
  ⟨by norm_num [iwm_sumWeights], iwm_zero_weight _ (by norm_num [iwm_sumWeights])⟩
